import Mathlib

/-!
Verification of the marketing-agents outreach pipeline.

Shallow embedding of the row store (CSV and Google Sheets backends), the
column policy (`src/utils/columnHelper.ts`), the campaign runner
(`runCampaign` / `processRow`), the worker's log-entry handling
(`src/workers/campaignWorker.ts`) and the research agent, together with
proofs about the specified behaviour.

JavaScript objects are modelled as ordered association lists
`List (String × CellValue)` (JS object keys are insertion-ordered); the
synthetic `_rowNumber` field is modelled as the `rowNumber` field of the
`ContactRow` structure, since the TypeScript code special-cases that key
everywhere it iterates over object properties.
-/

set_option maxRecDepth 8000

/-! ## Data model -/

/-- A scalar cell value: the TypeScript code stores strings, booleans and
numbers in contact-row fields. -/
inductive CellValue where
  | str : String → CellValue
  | bool : Bool → CellValue
  | num : Int → CellValue
deriving DecidableEq, Repr

/-- A contact row's dynamic fields: a JS object as an ordered association
list from column name to cell value. -/
abbrev RowFields := List (String × CellValue)

/-- JS property read `row[key]`: `none` models `undefined`. -/
def rowGet (row : RowFields) (key : String) : Option CellValue :=
  (row.find? (fun p => p.1 == key)).map (fun p => p.2)

/-- A contact row: the synthetic 1-based row identifier plus the column
fields (interface `ContactRow` in `types/index.ts`). -/
structure ContactRow where
  rowNumber : Nat
  fields : RowFields
deriving DecidableEq, Repr

/-! ## Column policy (`src/utils/columnHelper.ts`) -/

/-- Decimal digits to a natural number, as `parseInt(s, 10)` on an
all-digit string. -/
def digitsToNat (cs : List Char) : Nat :=
  cs.foldl (fun acc c => acc * 10 + (c.toNat - 48)) 0

/-- `parseColumnIndex`: match `^\$EMAIL_(\d+)$` and parse the suffix. -/
def parseColumnIndex (columnName : String) : Option Nat :=
  let cs := columnName.data
  let suffix := cs.drop 7
  if cs.take 7 == "$EMAIL_".data && !suffix.isEmpty && suffix.all (fun c => c.isDigit) then
    some (digitsToNat suffix)
  else
    none

/-- `key.startsWith('$EMAIL_')`, the filter used by `getEmailColumns`. -/
def startsWithEmail (name : String) : Bool :=
  name.data.take 7 == "$EMAIL_".data

/-- The sort key of `getEmailColumns`: `parseColumnIndex(a) || 0`
(a name that does not fully match `$EMAIL_<digits>` falls back to 0). -/
def emailColSortKey (name : String) : Nat :=
  (parseColumnIndex name).getD 0

/-- One step of a stable insertion sort: place `x` after every element
whose key is `≤` its key. -/
def insertStable (key : String → Nat) (x : String) : List String → List String
  | [] => [x]
  | y :: ys => if key y ≤ key x then y :: insertStable key x ys else x :: y :: ys

/-- Stable sort by a numeric key, as `Array.prototype.sort` with the
comparator `(a, b) => keyA - keyB` (ECMAScript sort is stable). -/
def stableSortByKey (key : String → Nat) (l : List String) : List String :=
  l.foldl (fun acc x => insertStable key x acc) []

/-- `getEmailColumns`: all keys of the row starting with `$EMAIL_`,
sorted by `parseColumnIndex(a) || 0`. -/
def getEmailColumns (row : RowFields) : List String :=
  stableSortByKey emailColSortKey ((row.map (fun p => p.1)).filter startsWithEmail)

/-- The emptiness test of `findNextEmptyEmailColumn`:
`!value || (typeof value === 'string' && value.trim() === '')`.
For a string, `s === '' or s.trim() === ''` is exactly "every character is
whitespace"; `!value` makes `false` and `0` empty, and a missing property
(`undefined`) is empty. -/
def isEmptyCellValue : Option CellValue → Bool
  | none => true
  | some (.str s) => s.data.all (fun c => c.isWhitespace)
  | some (.bool b) => !b
  | some (.num n) => n == 0

/-- `findNextEmptyEmailColumn`: first `$EMAIL_`-prefixed column (in sorted
order) whose value is empty, else `null`. -/
def findNextEmptyEmailColumn (row : RowFields) : Option String :=
  (getEmailColumns row).find? (fun col => isEmptyCellValue (rowGet row col))

/-- A name is a sequence column in the spec's sense: it fully matches
`$EMAIL_<digits>`. -/
def isSequenceColumn (name : String) : Bool :=
  (parseColumnIndex name).isSome

/-- `nextSlot` as worded by the spec: enumerate the sequence columns
(`$EMAIL_n`) present on the row, sort by numeric suffix ascending, return
the first whose value is empty or whitespace-only, else none. -/
def nextSlotSpec (row : RowFields) : Option String :=
  (stableSortByKey emailColSortKey ((row.map (fun p => p.1)).filter isSequenceColumn)).find?
    (fun col => isEmptyCellValue (rowGet row col))

/-- `shouldSkipRow`: skip when `PAUSE` or `$IN_TALKS` is `true`, `'TRUE'`
or `'true'`. -/
def shouldSkipRow (row : RowFields) : Bool :=
  let isPaused := rowGet row "PAUSE" == some (.bool true)
    || rowGet row "PAUSE" == some (.str "TRUE")
    || rowGet row "PAUSE" == some (.str "true")
  let isInTalks := rowGet row "$IN_TALKS" == some (.bool true)
    || rowGet row "$IN_TALKS" == some (.str "TRUE")
    || rowGet row "$IN_TALKS" == some (.str "true")
  isPaused || isInTalks

/-- A flag value accepted as truthy by the spec's eligibility rule:
boolean `true` or the string forms `"TRUE"` / `"true"`. -/
def truthyFlag (v : Option CellValue) : Bool :=
  v == some (.bool true) || v == some (.str "TRUE") || v == some (.str "true")

/-! ## Campaign runner (`campaignRunner` document of `src/lib/googleSheetsProvider.ts`) -/

/-- A queued `PROCESS_ROW` job: the row identifier plus a snapshot of the
row's data at enqueue time. -/
structure Job where
  rowNumber : Nat
  rowData : RowFields
deriving DecidableEq, Repr

/-- `CampaignStats` as returned by `runCampaign`. -/
structure CampaignStats where
  totalRows : Nat
  processedRows : Nat
  skippedRows : Nat
  sentEmails : Nat
  failedEmails : Nat
  errors : List String
deriving DecidableEq, Repr

/-- The body of `processRow` before its `catch`: skip ineligible rows,
otherwise `emailQueue.add` (whose outcome is the `enq` argument) enqueues
one job carrying the row snapshot.  An `error` models a thrown exception
(e.g. a queue-backend failure). -/
def processRowBody (enq : Except String Unit) (row : ContactRow) :
    Except String (Bool × List Job) :=
  if shouldSkipRow row.fields then .ok (false, [])
  else
    match enq with
    | .ok _ => .ok (true, [⟨row.rowNumber, row.fields⟩])
    | .error e => .error e

/-- `processRow`: the whole body is wrapped in `try/catch`; any exception
is logged and mapped to `false`.  The `Except` result type lets the caller
observe a thrown exception — the proofs show none ever escapes. -/
def processRow (enq : Except String Unit) (row : ContactRow) :
    Except String (Bool × List Job) :=
  match processRowBody enq row with
  | .ok r => .ok r
  | .error _ => .ok (false, [])

/-- The per-row loop of `runCampaign`: each iteration runs `processRow`
inside `try/catch` (the `catch` appends to `stats.errors`), updates the
processed/skipped counters, and breaks once
`stats.processedRows >= config.bot.maxEmailsPerRun`. -/
def runCampaignLoop (enq : ContactRow → Except String Unit) (maxPerRun : Nat) :
    List ContactRow → CampaignStats → List Job → CampaignStats × List Job
  | [], stats, jobs => (stats, jobs)
  | row :: rest, stats, jobs =>
    match processRow (enq row) row with
    | .ok (processed, newJobs) =>
      let stats' := match processed with
        | true => { stats with processedRows := stats.processedRows + 1 }
        | false => { stats with skippedRows := stats.skippedRows + 1 }
      if maxPerRun ≤ stats'.processedRows then (stats', jobs ++ newJobs)
      else runCampaignLoop enq maxPerRun rest stats' (jobs ++ newJobs)
    | .error e =>
      let stats' := { stats with errors := stats.errors ++ ["Row error: " ++ e] }
      if maxPerRun ≤ stats'.processedRows then (stats', jobs)
      else runCampaignLoop enq maxPerRun rest stats' jobs

/-- `maxRows ? rows.slice(0, maxRows) : rows` — note that a caller-supplied
limit of `0` is falsy in JavaScript, so it selects the whole row list. -/
def jsSliceLimit : Option Nat → List ContactRow → List ContactRow
  | none, rows => rows
  | some n, rows => if n == 0 then rows else rows.take n

/-- `runCampaign(maxRows?)`: load all rows once, apply the caller limit,
then run the per-row loop with fresh statistics.  Returns the final
statistics and the list of jobs enqueued during this run. -/
def runCampaign (enq : ContactRow → Except String Unit) (maxPerRun : Nat)
    (maxRows : Option Nat) (rows : List ContactRow) : CampaignStats × List Job :=
  runCampaignLoop enq maxPerRun (jsSliceLimit maxRows rows)
    { totalRows := rows.length, processedRows := 0, skippedRows := 0,
      sentEmails := 0, failedEmails := 0, errors := [] } []

/-! ## Helper lemmas for the column policy -/

theorem startsWithEmail_of_isSequenceColumn (n : String)
    (h : isSequenceColumn n = true) : startsWithEmail n = true := by
  unfold isSequenceColumn parseColumnIndex at h
  unfold startsWithEmail
  by_cases hc : (n.data.take 7 == "$EMAIL_".data) = true
  · exact hc
  · exfalso
    rw [Bool.not_eq_true] at hc
    simp [hc] at h

theorem mem_insertStable (key : String → Nat) (x a : String) :
    ∀ l : List String, a ∈ insertStable key x l ↔ a = x ∨ a ∈ l := by
  intro l
  induction l with
  | nil => simp [insertStable]
  | cons y ys ih =>
    unfold insertStable
    by_cases h : key y ≤ key x
    · simp only [if_pos h, List.mem_cons, ih]
      tauto
    · simp only [if_neg h, List.mem_cons]

theorem mem_stableSortByKey_foldl (key : String → Nat) (a : String) :
    ∀ (l acc : List String),
      a ∈ l.foldl (fun acc x => insertStable key x acc) acc ↔ a ∈ acc ∨ a ∈ l := by
  intro l
  induction l with
  | nil => simp
  | cons y ys ih =>
    intro acc
    simp only [List.foldl_cons, ih, mem_insertStable, List.mem_cons]
    tauto

theorem mem_stableSortByKey (key : String → Nat) (a : String) (l : List String) :
    a ∈ stableSortByKey key l ↔ a ∈ l := by
  unfold stableSortByKey
  simp [mem_stableSortByKey_foldl]

theorem filter_eq_of_pointwise {p q : String → Bool} :
    ∀ l : List String, (∀ x ∈ l, p x = q x) → l.filter p = l.filter q := by
  intro l
  induction l with
  | nil => intro _; rfl
  | cons y ys ih =>
    intro h
    have hy := h y (by simp)
    simp only [List.filter_cons, hy, ih fun x hx => h x (by simp [hx])]

/-! ## C2: next-slot selection -/

/-- C2 counterexample: on a row whose only `$EMAIL_`-prefixed key is
`$EMAIL_x` — not a sequence column, since the suffix is not numeric — the
spec's `nextSlot` returns none (no sequence columns exist), but
`findNextEmptyEmailColumn` returns `$EMAIL_x`, because the code filters on
the prefix `$EMAIL_` alone and never rejects a non-numeric suffix. -/
theorem C2_counterexample :
    nextSlotSpec [("$EMAIL_x", CellValue.str "")] = none
    ∧ findNextEmptyEmailColumn [("$EMAIL_x", CellValue.str "")] = some "$EMAIL_x" := by
  decide

/-- C2 (amended): `findNextEmptyEmailColumn` enumerates the columns whose
name merely starts with `$EMAIL_` (a non-numeric suffix is kept, with sort
key 0).  (1) On every row whose `$EMAIL_`-prefixed keys are all genuine
sequence columns `$EMAIL_<digits>`, it agrees with the spec's `nextSlot`;
(2) if every such column is filled (or none exists) it returns none, not
an error; (3) for a row with slots `[filled, empty, filled]` it returns
the second slot in every one of the six key orders. -/
theorem C2_nextSlot_amended :
    (∀ row : RowFields,
        (∀ k ∈ (row.map (fun p => p.1)).filter startsWithEmail, isSequenceColumn k = true) →
        findNextEmptyEmailColumn row = nextSlotSpec row)
    ∧ (∀ row : RowFields,
        (∀ k ∈ (row.map (fun p => p.1)).filter startsWithEmail,
          isEmptyCellValue (rowGet row k) = false) →
        findNextEmptyEmailColumn row = none)
    ∧ (findNextEmptyEmailColumn
          [("$EMAIL_1", .str "sent-1"), ("$EMAIL_2", .str ""), ("$EMAIL_3", .str "sent-3")]
          = some "$EMAIL_2"
        ∧ findNextEmptyEmailColumn
          [("$EMAIL_1", .str "sent-1"), ("$EMAIL_3", .str "sent-3"), ("$EMAIL_2", .str "")]
          = some "$EMAIL_2"
        ∧ findNextEmptyEmailColumn
          [("$EMAIL_2", .str ""), ("$EMAIL_1", .str "sent-1"), ("$EMAIL_3", .str "sent-3")]
          = some "$EMAIL_2"
        ∧ findNextEmptyEmailColumn
          [("$EMAIL_2", .str ""), ("$EMAIL_3", .str "sent-3"), ("$EMAIL_1", .str "sent-1")]
          = some "$EMAIL_2"
        ∧ findNextEmptyEmailColumn
          [("$EMAIL_3", .str "sent-3"), ("$EMAIL_1", .str "sent-1"), ("$EMAIL_2", .str "")]
          = some "$EMAIL_2"
        ∧ findNextEmptyEmailColumn
          [("$EMAIL_3", .str "sent-3"), ("$EMAIL_2", .str ""), ("$EMAIL_1", .str "sent-1")]
          = some "$EMAIL_2") := by
  refine ⟨?_, ?_, by decide⟩
  · intro row h
    unfold findNextEmptyEmailColumn nextSlotSpec getEmailColumns
    have hpq : ∀ x ∈ row.map (fun p => p.1), startsWithEmail x = isSequenceColumn x := by
      intro x hx
      cases hs : startsWithEmail x with
      | true =>
        have : x ∈ (row.map (fun p => p.1)).filter startsWithEmail :=
          List.mem_filter.mpr ⟨hx, hs⟩
        exact (h x this).symm
      | false =>
        cases hq : isSequenceColumn x with
        | true => exact absurd (startsWithEmail_of_isSequenceColumn x hq) (by simp [hs])
        | false => rfl
    rw [filter_eq_of_pointwise _ hpq]
  · intro row h
    cases hfind : findNextEmptyEmailColumn row with
    | none => rfl
    | some c =>
      exfalso
      unfold findNextEmptyEmailColumn at hfind
      have hc := List.find?_some hfind
      have hmem := List.mem_of_find?_eq_some hfind
      unfold getEmailColumns at hmem
      rw [mem_stableSortByKey] at hmem
      have := h c hmem
      rw [this] at hc
      exact Bool.false_ne_true hc

/-- Witness for C2: on a concrete row whose `$EMAIL_` keys are genuine
sequence columns, the code agrees with the spec's `nextSlot`. -/
theorem C2_nextSlot_amended_witness :
    findNextEmptyEmailColumn [("$EMAIL_2", CellValue.str ""), ("$EMAIL_1", CellValue.str "x")]
      = nextSlotSpec [("$EMAIL_2", CellValue.str ""), ("$EMAIL_1", CellValue.str "x")] :=
  C2_nextSlot_amended.1 _ (by decide)

/-! ## C3: eligibility flags -/

/-- C3: a row with a truthy `PAUSE` or `$IN_TALKS` flag (boolean `true`,
`"TRUE"` or `"true"`) is skipped — `shouldSkipRow` is true and `processRow`
enqueues no job — and a row with neither flag truthy is not skipped. -/
theorem C3_eligibility : ∀ (enq : Except String Unit) (row : ContactRow),
    ((truthyFlag (rowGet row.fields "PAUSE") || truthyFlag (rowGet row.fields "$IN_TALKS")) = true →
      shouldSkipRow row.fields = true ∧ processRow enq row = .ok (false, []))
    ∧ ((truthyFlag (rowGet row.fields "PAUSE") || truthyFlag (rowGet row.fields "$IN_TALKS")) = false →
      shouldSkipRow row.fields = false) := by
  intro enq row
  have hss : shouldSkipRow row.fields
      = (truthyFlag (rowGet row.fields "PAUSE") || truthyFlag (rowGet row.fields "$IN_TALKS")) := rfl
  constructor
  · intro h
    refine ⟨by rw [hss, h], ?_⟩
    unfold processRow processRowBody
    rw [hss, h]
    simp
  · intro h
    rw [hss, h]

/-- Witness for C3 at a concrete paused row and a concrete clean row. -/
theorem C3_eligibility_witness :
    (shouldSkipRow [("PAUSE", CellValue.str "TRUE")] = true
      ∧ processRow (.ok ()) ⟨1, [("PAUSE", CellValue.str "TRUE")]⟩ = .ok (false, []))
    ∧ shouldSkipRow [("Name", CellValue.str "Alex")] = false :=
  ⟨(C3_eligibility (.ok ()) ⟨1, [("PAUSE", CellValue.str "TRUE")]⟩).1 (by decide),
   (C3_eligibility (.ok ()) ⟨1, [("Name", CellValue.str "Alex")]⟩).2 (by decide)⟩

/-! ## Log entries (`formatEmailLogEntry` / `parseEmailLogEntry`) -/

/-- The characters of the literal separator `' | '`. -/
def sepChars : List Char := [' ', '|', ' ']

/-- JS `logEntry.split(' | ')` on the character sequence: scan left to
right, cutting a part at each occurrence of the separator (fewer than
three remaining characters cannot hold the separator). -/
def splitSepAux (acc : List Char) : List Char → List (List Char)
  | [] => [acc.reverse]
  | [c] => [(c :: acc).reverse]
  | [c1, c2] => [(c2 :: c1 :: acc).reverse]
  | c1 :: c2 :: c3 :: rest =>
    if c1 = ' ' ∧ c2 = '|' ∧ c3 = ' ' then
      acc.reverse :: splitSepAux [] rest
    else
      splitSepAux (c1 :: acc) (c2 :: c3 :: rest)

/-- `logEntry.split(' | ')`. -/
def splitSep (s : String) : List String :=
  (splitSepAux [] s.data).map (fun cs => String.mk cs)

/-- `formatEmailLogEntry`: the four mandatory fields joined by `' | '`,
then `' | Subject: <subject>'` when `subject` is truthy (not absent, not
the empty string).  The declaration has no `html` parameter. -/
def formatEmailLogEntry (timestamp messageId templateName status : String)
    (subject : Option String) : String :=
  let entry := timestamp ++ " | " ++ messageId ++ " | " ++ templateName ++ " | " ++ status
  match subject with
  | some s => if s.data.isEmpty then entry else entry ++ " | Subject: " ++ s
  | none => entry

/-- The parsed form of a log entry (interface `EmailLogEntry`): there is
no `html` field. -/
structure EmailLogEntry where
  timestamp : String
  messageId : String
  templateName : String
  status : String
  subject : Option String := none
deriving DecidableEq, Repr

/-- `parseEmailLogEntry`: `null` for a falsy input or fewer than four
`' | '`-separated parts; otherwise the four mandatory fields, plus the
subject when a fifth part `Subject: <text>` is present (the optional
trailing segment may be absent). -/
def parseEmailLogEntry (logEntry : String) : Option EmailLogEntry :=
  if logEntry.data.isEmpty then none
  else
    let parts := splitSep logEntry
    if parts.length < 4 then none
    else some
      { timestamp := parts.getD 0 ""
        messageId := parts.getD 1 ""
        templateName := parts.getD 2 ""
        status := parts.getD 3 ""
        subject :=
          match parts.get? 4 with
          | some p4 =>
            if !p4.data.isEmpty && p4.data.take 9 == "Subject: ".data then
              some (String.mk (p4.data.drop 9))
            else none
          | none => none }

/-- The log-entry construction of `processRowJob` in `campaignWorker.ts`:
the call site passes six arguments `(timestamp, messageId, templateName,
status, subject, html)`, but `formatEmailLogEntry` declares only five
parameters, so JavaScript discards the trailing `html` argument. -/
def processRowJobLogEntry (timestamp messageId templateName status subject html : String) :
    String :=
  formatEmailLogEntry timestamp messageId templateName status (some subject)

/-! ## CSV backend (`csvDataProvider.ts`) -/

/-- The durable CSV file: the header row plus the data records in storage
order, each record mapping every header to its cell text, as emitted by
the csv-parser stream. -/
structure CsvFile where
  headers : List String
  records : List RowFields
deriving DecidableEq, Repr

/-- Numbering pass of `getRows`: `_rowNumber: rowNumber++` starting at 1
for every emitted record. -/
def csvGetRowsAux (rowNumber : Nat) : List RowFields → List ContactRow
  | [] => []
  | r :: rs => ⟨rowNumber, r⟩ :: csvGetRowsAux (rowNumber + 1) rs

/-- `CsvDataProvider.getRows`: every parsed record becomes a contact row,
numbered consecutively from 1 — no record is skipped. -/
def csvGetRows (file : CsvFile) : List ContactRow :=
  csvGetRowsAux 1 file.records

/-- `CsvDataProvider.getRow`: the row with the given `_rowNumber`, if any. -/
def csvGetRow (file : CsvFile) (rowNumber : Nat) : Option ContactRow :=
  (csvGetRows file).find? (fun r => r.rowNumber == rowNumber)

/-- JS object spread `{...row, ...updates}`: existing keys keep their
position but take the updated value; keys new in `updates` are appended
in `updates` order. -/
def jsMerge (row updates : RowFields) : RowFields :=
  (row.map (fun p =>
    match updates.find? (fun q => q.1 == p.1) with
    | some q => (p.1, q.2)
    | none => p))
  ++ updates.filter (fun q => (row.find? (fun p => p.1 == q.1)).isNone)

/-- `rows[rowIndex] = {...rows[rowIndex], ...updates}` at the first row
whose `_rowNumber` matches; `none` when `findIndex` returns `-1`. -/
def updateRowsAt : List ContactRow → Nat → RowFields → Option (List ContactRow)
  | [], _, _ => none
  | r :: rs, n, u =>
    if r.rowNumber == n then some ({ r with fields := jsMerge r.fields u } :: rs)
    else (updateRowsAt rs n u).map (fun rs2 => r :: rs2)

/-- Append `x` unless already present — one insertion into the JS `Set`
(insertion-ordered, deduplicating). -/
def addUnique (l : List String) (x : String) : List String :=
  if l.contains x then l else l ++ [x]

/-- The header array of `writeRows`: `new Set(this.headers)` seeded with
the provider's headers, then every row's keys are added. -/
def writeRowsHeaders (headers : List String) (rows : List ContactRow) : List String :=
  rows.foldl (fun acc r => r.fields.foldl (fun acc2 p => addUnique acc2 p.1) acc)
    (headers.foldl addUnique [])

/-- `writeRows`: rewrite the whole file; each record maps every header to
the row's value for it, defaulting to `''`. -/
def csvWriteRows (headers : List String) (rows : List ContactRow) : CsvFile :=
  let headerArray := writeRowsHeaders headers rows
  { headers := headerArray
    records := rows.map (fun r =>
      headerArray.map (fun h => (h, (rowGet r.fields h).getD (.str "")))) }

/-- `CsvDataProvider.updateRow`: re-read the file, merge the updates into
the row with the given number, rewrite the file; throws `Row not found`
when no row has that number. -/
def csvUpdateRow (file : CsvFile) (rowNumber : Nat) (updates : RowFields) :
    Except String CsvFile :=
  match updateRowsAt (csvGetRows file) rowNumber updates with
  | some rows2 => .ok (csvWriteRows file.headers rows2)
  | none => .error "Row not found"

/-- JS property assignment `row[key] = v`: overwrite in place, else
append. -/
def setKey (row : RowFields) (key : String) (v : CellValue) : RowFields :=
  if (row.find? (fun p => p.1 == key)).isSome then
    row.map (fun p => if p.1 == key then (p.1, v) else p)
  else row ++ [(key, v)]

/-- `CsvDataProvider.addColumn`: no-op with only a logged warning when the
header already exists; otherwise push the header, give every row a blank
value for it, and rewrite the file. -/
def csvAddColumn (file : CsvFile) (columnName : String) : CsvFile :=
  let rows := csvGetRows file
  if file.headers.contains columnName then file
  else
    csvWriteRows (file.headers ++ [columnName])
      (rows.map (fun r => { r with fields := setKey r.fields columnName (.str "") }))

/-! ## Google Sheets backend (`googleSheetsProvider.ts`) -/

/-- A raw sheet row from the values API: a list of cells, `none` modelling
a null/undefined cell. -/
abbrev SheetRow := List (Option String)

/-- The skip test of `getRows`: keep a row iff some cell is non-null and
not whitespace-only (`String(cell).trim() !== ''`). -/
def sheetRowNonEmpty (row : SheetRow) : Bool :=
  row.any (fun cell =>
    match cell with
    | some s => !s.data.all (fun c => c.isWhitespace)
    | none => false)

/-- `getColumnLetter`: 1 → A, 2 → B, …, 27 → AA. -/
def getColumnLetter : Nat → String
  | 0 => ""
  | n + 1 => getColumnLetter (n / 26) ++ String.mk [Char.ofNat (65 + n % 26)]
decreasing_by
  exact Nat.lt_succ_of_le (Nat.div_le_self n 26)

/-- The header-indexed fields of `rowToContactRow`: each non-blank header
maps to the corresponding cell, missing/null cells becoming `''`.
(Headers are assumed pairwise distinct, as in a well-formed sheet.) -/
def headerFieldsAux (row : SheetRow) : List String → Nat → RowFields
  | [], _ => []
  | h :: hs, i =>
    if h.data.isEmpty then headerFieldsAux row hs (i + 1)
    else (h, .str (((row.get? i).getD none).getD "")) :: headerFieldsAux row hs (i + 1)

/-- The extra fields of `rowToContactRow`: cells beyond the header count
are kept under their column letter. -/
def extraFieldsAux (headersLen : Nat) : SheetRow → Nat → RowFields
  | [], _ => []
  | cell :: rest, i =>
    if headersLen ≤ i then
      match cell with
      | some v => (getColumnLetter (i + 1), .str v) :: extraFieldsAux headersLen rest (i + 1)
      | none => extraFieldsAux headersLen rest (i + 1)
    else extraFieldsAux headersLen rest (i + 1)

/-- `rowToContactRow`: `_rowNumber` is the sheet row minus the header
row. -/
def rowToContactRow (headers : List String) (row : SheetRow) (actualSheetRow : Nat) :
    ContactRow :=
  ⟨actualSheetRow - 1, headerFieldsAux row headers 0 ++ extraFieldsAux headers.length row 0⟩

/-- The `forEach` of `getRows`: skip completely empty rows, convert the
rest with `actualSheetRow = startRow + index` — the index counts all rows
returned by the API, the skipped ones included. -/
def sheetsGetRowsAux (headers : List String) (startRow : Nat) :
    List SheetRow → Nat → List ContactRow
  | [], _ => []
  | r :: rs, idx =>
    if sheetRowNonEmpty r then
      rowToContactRow headers r (startRow + idx) :: sheetsGetRowsAux headers startRow rs (idx + 1)
    else sheetsGetRowsAux headers startRow rs (idx + 1)

/-- `GoogleSheetsProvider.getRows` on a cache miss: read the range
`A2:ZZ` (so `startRow` is 2 in practice), skip empty rows, and number the
kept rows by sheet position. -/
def sheetsGetRows (headers : List String) (startRow : Nat) (rows : List SheetRow) :
    List ContactRow :=
  sheetsGetRowsAux headers startRow rows 0

/-- The provider state relevant to `GoogleSheetsProvider.addColumn`: the
cached header row and the row cache. -/
structure SheetsState where
  headers : List String
  cache : Option (List ContactRow)
deriving DecidableEq, Repr

/-- `GoogleSheetsProvider.addColumn`: warn-and-return when the cached
header row already has the column; otherwise insert a column after the
last header, write the header cell, push the cached header, and
invalidate the row cache. -/
def sheetsAddColumn (s : SheetsState) (columnName : String) : SheetsState :=
  if s.headers.contains columnName then s
  else { headers := s.headers ++ [columnName], cache := none }

/-! ## Split lemmas for the log-entry separator -/

/-- No occurrence of the separator starts strictly inside `f` when `f` is
followed by the separator — the condition under which the split cuts
exactly at an appended separator.  It rules out `' | '` occurring inside
`f` and `f` ending in `' |'` (which would overlap an appended separator). -/
def sepFreeAt (f : List Char) : Prop :=
  ∀ i < f.length, (f.drop i ++ sepChars).take 3 ≠ sepChars

instance (f : List Char) : Decidable (sepFreeAt f) := by
  unfold sepFreeAt
  infer_instance

theorem sepFreeAt_of_cons (c : Char) (f : List Char) (h : sepFreeAt (c :: f)) :
    sepFreeAt f := by
  intro i hi
  have := h (i + 1) (by simp; omega)
  simpa using this

theorem splitSepAux_sep (acc b : List Char) :
    splitSepAux acc (sepChars ++ b) = acc.reverse :: splitSepAux [] b := by
  show splitSepAux acc (' ' :: '|' :: ' ' :: b) = _
  simp [splitSepAux]

theorem splitSepAux_cons_ne (acc : List Char) (c : Char) (l : List Char)
    (h : ¬(c :: l).take 3 = sepChars) (hlen : 2 ≤ l.length) :
    splitSepAux acc (c :: l) = splitSepAux (c :: acc) l := by
  cases l with
  | nil => simp at hlen
  | cons c2 l2 =>
    cases l2 with
    | nil => simp at hlen
    | cons c3 rest =>
      have hcond : ¬(c = ' ' ∧ c2 = '|' ∧ c3 = ' ') := by
        intro hc
        exact h (by simp [hc.1, hc.2.1, hc.2.2, sepChars])
      simp [splitSepAux, hcond]

theorem splitSepAux_append (a b : List Char) (ha : sepFreeAt a) :
    ∀ acc, splitSepAux acc (a ++ (sepChars ++ b)) = (acc.reverse ++ a) :: splitSepAux [] b := by
  induction a with
  | nil =>
    intro acc
    simpa using splitSepAux_sep acc b
  | cons c a2 ih =>
    intro acc
    have h0 : ¬((c :: a2) ++ sepChars).take 3 = sepChars := by simpa using ha 0 (by simp)
    have hne : ¬(c :: (a2 ++ (sepChars ++ b))).take 3 = sepChars := by
      have hrw : c :: (a2 ++ (sepChars ++ b)) = ((c :: a2) ++ sepChars) ++ b := by simp
      rw [hrw, List.take_append_of_le_length (by simp [sepChars])]
      exact h0
    have hlen : 2 ≤ (a2 ++ (sepChars ++ b)).length := by simp [sepChars]; omega
    rw [show (c :: a2) ++ (sepChars ++ b) = c :: (a2 ++ (sepChars ++ b)) by simp]
    rw [splitSepAux_cons_ne acc c _ hne hlen]
    rw [ih (sepFreeAt_of_cons c a2 ha) (c :: acc)]
    simp

theorem splitSepAux_sepFree : ∀ (f : List Char), sepFreeAt f →
    ∀ acc, splitSepAux acc f = [acc.reverse ++ f] := by
  intro f
  induction f with
  | nil => intro _ acc; simp [splitSepAux]
  | cons c f2 ih =>
    intro hf acc
    cases f2 with
    | nil => simp [splitSepAux]
    | cons c2 f3 =>
      cases f3 with
      | nil => simp [splitSepAux]
      | cons c3 rest =>
        have h0 := hf 0 (by simp)
        have hne : ¬(c :: c2 :: c3 :: rest).take 3 = sepChars := by
          simp only [List.drop_zero] at h0
          rw [List.take_append_of_le_length (by simp)] at h0
          simpa using h0
        have hcond : ¬(c = ' ' ∧ c2 = '|' ∧ c3 = ' ') := by
          intro hc
          exact hne (by simp [hc.1, hc.2.1, hc.2.2, sepChars])
        have ih2 := ih (sepFreeAt_of_cons c _ hf) (c :: acc)
        simp only [splitSepAux, hcond, if_false] at ih2 ⊢
        rw [ih2]
        simp

theorem formatEmailLogEntry_none (t m tpl st : String) :
    formatEmailLogEntry t m tpl st none = t ++ " | " ++ m ++ " | " ++ tpl ++ " | " ++ st := rfl

theorem sepString_data : " | ".data = sepChars := by decide

theorem strMk_data (s : String) : String.mk s.data = s := rfl

theorem format_none_data (t m tpl st : String) :
    (formatEmailLogEntry t m tpl st none).data
      = t.data ++ (sepChars ++ (m.data ++ (sepChars ++ (tpl.data ++ (sepChars ++ st.data))))) := by
  rw [formatEmailLogEntry_none]
  simp only [String.data_append, List.append_assoc, sepChars]

theorem splitSep_format_none (t m tpl st : String)
    (ht : sepFreeAt t.data) (hm : sepFreeAt m.data) (htpl : sepFreeAt tpl.data)
    (hst : sepFreeAt st.data) :
    splitSep (formatEmailLogEntry t m tpl st none) = [t, m, tpl, st] := by
  unfold splitSep
  rw [format_none_data]
  rw [splitSepAux_append _ _ ht, splitSepAux_append _ _ hm, splitSepAux_append _ _ htpl,
      splitSepAux_sepFree _ hst]
  simp [strMk_data]

theorem parse_format_none (t m tpl st : String)
    (ht : sepFreeAt t.data) (hm : sepFreeAt m.data) (htpl : sepFreeAt tpl.data)
    (hst : sepFreeAt st.data) :
    parseEmailLogEntry (formatEmailLogEntry t m tpl st none)
      = some { timestamp := t, messageId := m, templateName := tpl, status := st,
               subject := none } := by
  have hsplit := splitSep_format_none t m tpl st ht hm htpl hst
  have hne : (formatEmailLogEntry t m tpl st none).data.isEmpty = false := by
    rw [format_none_data]
    cases t.data <;> simp [sepChars]
  simp [parseEmailLogEntry, hne, hsplit]

/-! ## Lookup and merge lemmas for the CSV backend -/

theorem contains_iff_mem (l : List String) (x : String) : l.contains x = true ↔ x ∈ l :=
  List.elem_iff

theorem rowGet_mapkeys (g : String → CellValue) (key : String) :
    ∀ l : List String, rowGet (l.map (fun h => (h, g h))) key
      = if key ∈ l then some (g key) else none := by
  intro l
  induction l with
  | nil => simp [rowGet]
  | cons h hs ih =>
    by_cases hk : h = key
    · subst hk
      unfold rowGet
      have hc : ((h, g h).1 == h) = true := by simp
      simp only [List.map_cons, List.find?_cons, hc, Option.map_some', List.mem_cons,
        true_or, if_true]
    · unfold rowGet at ih ⊢
      have hc : ((h, g h).1 == key) = false := by simp [hk]
      simp only [List.map_cons, List.find?_cons, hc]
      rw [ih]
      simp [List.mem_cons, Ne.symm hk]

theorem find?_map_keyfix (f : (String × CellValue) → (String × CellValue))
    (hf : ∀ p, (f p).1 = p.1) (key : String) :
    ∀ row : RowFields, (row.map f).find? (fun p => p.1 == key)
      = (row.find? (fun p => p.1 == key)).map f := by
  intro row
  induction row with
  | nil => rfl
  | cons p row2 ih =>
    cases hp : (p.1 == key) with
    | true =>
      have hfp : ((f p).1 == key) = true := by rw [hf]; exact hp
      simp only [List.map_cons, List.find?_cons, hp, hfp, Option.map_some']
    | false =>
      have hfp : ((f p).1 == key) = false := by rw [hf]; exact hp
      simp only [List.map_cons, List.find?_cons, hp, hfp]
      exact ih

theorem find?_filter_of_pred (key : String) (pred : (String × CellValue) → Bool)
    (hp : ∀ q : String × CellValue, (q.1 == key) = true → pred q = true) :
    ∀ u : RowFields, (u.filter pred).find? (fun q => q.1 == key)
      = u.find? (fun q => q.1 == key) := by
  intro u
  induction u with
  | nil => rfl
  | cons q u2 ih =>
    cases hq : (q.1 == key) with
    | true =>
      rw [List.filter_cons, hp q hq]
      simp only [if_true, List.find?_cons, hq]
    | false =>
      rw [List.filter_cons]
      cases hpq : pred q
      · simp only [Bool.false_eq_true, if_false, ih, List.find?_cons, hq]
      · simp only [if_true, List.find?_cons, hq]
        exact ih

theorem rowGet_jsMerge_updates (row updates : RowFields) (key : String) (v : CellValue)
    (h : rowGet updates key = some v) :
    rowGet (jsMerge row updates) key = some v := by
  unfold rowGet at h
  unfold jsMerge rowGet
  rw [List.find?_append]
  rw [find?_map_keyfix _ (fun p => by cases hq : updates.find? (fun q => q.1 == p.1) <;> simp [hq]) key row]
  cases hrow : row.find? (fun p => p.1 == key) with
  | none =>
    simp only [Option.map_none', Option.none_or]
    rw [find?_filter_of_pred key _ ?_]
    · exact h
    · intro q hq
      have hqk : q.1 = key := by simpa using hq
      rw [hqk, hrow]
      rfl
  | some p0 =>
    have hp0 : (p0.1 == key) = true := by
      have := List.find?_some hrow
      simpa using this
    have hp0eq : p0.1 = key := by simpa using hp0
    simp only [Option.map_some', Option.or_some]
    cases hu : updates.find? (fun q => q.1 == key) with
    | none => rw [hu] at h; simp at h
    | some qu =>
      rw [hu] at h
      simp only [Option.map_some', Option.some_inj] at h
      rw [hp0eq, hu]
      simp [h]

theorem csvGetRowsAux_find? : ∀ (rs : List RowFields) (k n : Nat), k ≤ n →
    (csvGetRowsAux k rs).find? (fun r => r.rowNumber == n)
      = (rs.get? (n - k)).map (fun fields => (⟨n, fields⟩ : ContactRow)) := by
  intro rs
  induction rs with
  | nil => intro k n _; rfl
  | cons r rs2 ih =>
    intro k n hk
    unfold csvGetRowsAux
    by_cases hkn : k = n
    · subst hkn
      have hc : ((⟨k, r⟩ : ContactRow).rowNumber == k) = true := by simp
      simp only [List.find?_cons, hc, Nat.sub_self, List.get?_cons_zero, Option.map_some']
    · have hc : ((⟨k, r⟩ : ContactRow).rowNumber == n) = false := by simpa using hkn
      simp only [List.find?_cons, hc]
      rw [ih (k + 1) n (by omega)]
      have hnk : n - k = (n - (k + 1)) + 1 := by omega
      rw [hnk, List.get?_cons_succ]

theorem updateRowsAt_csvAux : ∀ (rs : List RowFields) (k n : Nat) (u fields : RowFields),
    k ≤ n → rs.get? (n - k) = some fields →
    updateRowsAt (csvGetRowsAux k rs) n u
      = some (csvGetRowsAux k (rs.set (n - k) (jsMerge fields u))) := by
  intro rs
  induction rs with
  | nil => intro k n u fields _ h; simp at h
  | cons r rs2 ih =>
    intro k n u fields hk h
    by_cases hkn : k = n
    · subst hkn
      rw [Nat.sub_self] at h ⊢
      rw [List.get?_cons_zero, Option.some_inj] at h
      subst h
      unfold csvGetRowsAux updateRowsAt
      rw [if_pos (by simp)]
      rfl
    · have hk1 : k + 1 ≤ n := by omega
      have hnk : n - k = (n - (k + 1)) + 1 := by omega
      rw [hnk] at h ⊢
      rw [List.get?_cons_succ] at h
      unfold csvGetRowsAux updateRowsAt
      rw [if_neg (by simpa using hkn)]
      rw [ih (k + 1) n u fields hk1 h]
      rfl

theorem csvGetRowsAux_get? : ∀ (rs : List RowFields) (k i : Nat),
    (csvGetRowsAux k rs).get? i = (rs.get? i).map (fun fields => (⟨k + i, fields⟩ : ContactRow)) := by
  intro rs
  induction rs with
  | nil => intro k i; rfl
  | cons r rs2 ih =>
    intro k i
    cases i with
    | zero => rfl
    | succ i2 =>
      unfold csvGetRowsAux
      rw [List.get?_cons_succ, List.get?_cons_succ, ih (k + 1) i2]
      have : k + 1 + i2 = k + (i2 + 1) := by omega
      rw [this]

theorem rowGet_some_mem_keys (l : RowFields) (k : String) (v : CellValue)
    (h : rowGet l k = some v) : k ∈ l.map (fun p => p.1) := by
  unfold rowGet at h
  cases hf : l.find? (fun p => p.1 == k) with
  | none => rw [hf] at h; simp at h
  | some p =>
    have hm := List.mem_of_find?_eq_some hf
    have hk : p.1 = k := by simpa using List.find?_some hf
    exact hk ▸ List.mem_map_of_mem (fun p => p.1) hm

theorem mem_addUnique (l : List String) (y x : String) :
    x ∈ addUnique l y ↔ x ∈ l ∨ x = y := by
  unfold addUnique
  by_cases h : l.contains y = true
  · rw [if_pos h]
    constructor
    · exact fun hx => Or.inl hx
    · intro hx
      cases hx with
      | inl hx => exact hx
      | inr he => exact he ▸ (contains_iff_mem l y).mp h
  · rw [if_neg h]
    simp [List.mem_append]

theorem nodup_addUnique (l : List String) (y : String) (h : l.Nodup) :
    (addUnique l y).Nodup := by
  unfold addUnique
  by_cases hc : l.contains y = true
  · rw [if_pos hc]; exact h
  · rw [if_neg hc]
    rw [List.nodup_append]
    refine ⟨h, List.nodup_singleton y, ?_⟩
    intro a ha hb
    rw [List.mem_singleton] at hb
    subst hb
    exact hc ((contains_iff_mem l a).mpr ha)

theorem mem_foldl_addUnique (x : String) :
    ∀ (l acc : List String), x ∈ l.foldl addUnique acc ↔ x ∈ acc ∨ x ∈ l := by
  intro l
  induction l with
  | nil => simp
  | cons y l2 ih =>
    intro acc
    rw [List.foldl_cons, ih (addUnique acc y)]
    rw [mem_addUnique]
    simp [List.mem_cons]
    tauto

theorem nodup_foldl_addUnique :
    ∀ (l acc : List String), acc.Nodup → (l.foldl addUnique acc).Nodup := by
  intro l
  induction l with
  | nil => exact fun _ h => h
  | cons y l2 ih => exact fun acc h => ih (addUnique acc y) (nodup_addUnique acc y h)

theorem mem_foldl_addUnique_keys (x : String) :
    ∀ (fields : RowFields) (acc : List String),
      x ∈ fields.foldl (fun acc2 p => addUnique acc2 p.1) acc
        ↔ x ∈ acc ∨ x ∈ fields.map (fun p => p.1) := by
  intro fields
  induction fields with
  | nil => simp
  | cons p fs ih =>
    intro acc
    rw [List.foldl_cons, ih (addUnique acc p.1), mem_addUnique]
    simp [List.mem_cons]
    tauto

theorem nodup_foldl_addUnique_keys :
    ∀ (fields : RowFields) (acc : List String), acc.Nodup →
      (fields.foldl (fun acc2 p => addUnique acc2 p.1) acc).Nodup := by
  intro fields
  induction fields with
  | nil => exact fun _ h => h
  | cons p fs ih => exact fun acc h => ih (addUnique acc p.1) (nodup_addUnique acc p.1 h)

theorem mem_rows_foldl (x : String) :
    ∀ (rows : List ContactRow) (acc : List String),
      x ∈ rows.foldl (fun acc r => r.fields.foldl (fun acc2 p => addUnique acc2 p.1) acc) acc
        ↔ x ∈ acc ∨ ∃ r ∈ rows, x ∈ r.fields.map (fun p => p.1) := by
  intro rows
  induction rows with
  | nil => simp
  | cons r rows2 ih =>
    intro acc
    rw [List.foldl_cons, ih, mem_foldl_addUnique_keys]
    constructor
    · rintro (⟨ha | hr⟩ | ⟨r2, hr2, hx⟩)
      · exact Or.inl ha
      · exact Or.inr ⟨r, by simp, hr⟩
      · exact Or.inr ⟨r2, by simp [hr2], hx⟩
    · rintro (ha | ⟨r2, hr2, hx⟩)
      · exact Or.inl (Or.inl ha)
      · rw [List.mem_cons] at hr2
        cases hr2 with
        | inl he => exact Or.inl (Or.inr (he ▸ hx))
        | inr hm => exact Or.inr ⟨r2, hm, hx⟩

theorem mem_writeRowsHeaders (headers : List String) (rows : List ContactRow) (x : String) :
    x ∈ writeRowsHeaders headers rows
      ↔ x ∈ headers ∨ ∃ r ∈ rows, x ∈ r.fields.map (fun p => p.1) := by
  unfold writeRowsHeaders
  rw [mem_rows_foldl, mem_foldl_addUnique]
  simp

theorem nodup_rows_foldl :
    ∀ (rows : List ContactRow) (acc : List String), acc.Nodup →
      (rows.foldl (fun acc r => r.fields.foldl (fun acc2 p => addUnique acc2 p.1) acc) acc).Nodup := by
  intro rows
  induction rows with
  | nil => exact fun _ h => h
  | cons r rows2 ih =>
    intro acc h
    rw [List.foldl_cons]
    exact ih _ (nodup_foldl_addUnique_keys r.fields acc h)

theorem nodup_writeRowsHeaders (headers : List String) (rows : List ContactRow) :
    (writeRowsHeaders headers rows).Nodup :=
  nodup_rows_foldl rows _ (nodup_foldl_addUnique headers [] List.nodup_nil)

/-! ## C5: log-entry round trip through the store -/

/-- C5: formatting a log entry (with the optional segments absent),
writing it to a slot column via the CSV backend's `updateRow` (together
with the `is_sent` / `sent_by` fields, as the worker does), and reading
the row back yields a slot value that re-parses into the same
`{timestamp, messageId, templateName, status}` tuple, with the optional
subject parsing to `undefined` rather than failing.  The fields are
assumed not to interact with the `' | '` separator (no occurrence of the
separator may start inside a field), which holds for ISO-8601 timestamps,
message identifiers, template names and `SENT`/`FAILED` tokens. -/
theorem C5_update_roundtrip (file : CsvFile) (n : Nat) (slot t m tpl st : String)
    (hn : 1 ≤ n) (hrow : (file.records.get? (n - 1)).isSome)
    (ht : sepFreeAt t.data) (hm : sepFreeAt m.data) (htpl : sepFreeAt tpl.data)
    (hst : sepFreeAt st.data) :
    ∃ file2, csvUpdateRow file n
        [(slot, .str (formatEmailLogEntry t m tpl st none)),
         ("is_sent", .bool true), ("sent_by", .str "ReplyFanBot")] = .ok file2
      ∧ ∃ r, csvGetRow file2 n = some r
        ∧ rowGet r.fields slot = some (.str (formatEmailLogEntry t m tpl st none))
        ∧ parseEmailLogEntry (formatEmailLogEntry t m tpl st none)
            = some { timestamp := t, messageId := m, templateName := tpl, status := st,
                     subject := none } := by
  obtain ⟨fields, hf⟩ := Option.isSome_iff_exists.mp hrow
  have hlen : n - 1 < file.records.length := (List.get?_eq_some.mp hf).1
  have hgetu : rowGet [(slot, CellValue.str (formatEmailLogEntry t m tpl st none)),
      ("is_sent", CellValue.bool true), ("sent_by", CellValue.str "ReplyFanBot")] slot
      = some (.str (formatEmailLogEntry t m tpl st none)) := by
    unfold rowGet
    have hc : (((slot, CellValue.str (formatEmailLogEntry t m tpl st none))).1 == slot) = true := by
      simp
    simp only [List.find?_cons, hc, Option.map_some']
  have hupd := updateRowsAt_csvAux file.records 1 n
    [(slot, .str (formatEmailLogEntry t m tpl st none)),
     ("is_sent", .bool true), ("sent_by", .str "ReplyFanBot")] fields hn hf
  have hmergedGet : rowGet (jsMerge fields
      [(slot, .str (formatEmailLogEntry t m tpl st none)),
       ("is_sent", .bool true), ("sent_by", .str "ReplyFanBot")]) slot
      = some (.str (formatEmailLogEntry t m tpl st none)) :=
    rowGet_jsMerge_updates _ _ _ _ hgetu
  refine ⟨csvWriteRows file.headers (csvGetRowsAux 1
      (file.records.set (n - 1) (jsMerge fields
        [(slot, .str (formatEmailLogEntry t m tpl st none)),
         ("is_sent", .bool true), ("sent_by", .str "ReplyFanBot")]))), ?_, ?_⟩
  · unfold csvUpdateRow csvGetRows
    rw [hupd]
  · have hget2 : (file.records.set (n - 1) (jsMerge fields
        [(slot, .str (formatEmailLogEntry t m tpl st none)),
         ("is_sent", .bool true), ("sent_by", .str "ReplyFanBot")])).get? (n - 1)
        = some (jsMerge fields
        [(slot, .str (formatEmailLogEntry t m tpl st none)),
         ("is_sent", .bool true), ("sent_by", .str "ReplyFanBot")]) := by
      rw [List.get?_eq_getElem?]
      exact List.getElem?_set_self (by simpa using hlen)
    have hrows2get : (csvGetRowsAux 1 (file.records.set (n - 1) (jsMerge fields
        [(slot, .str (formatEmailLogEntry t m tpl st none)),
         ("is_sent", .bool true), ("sent_by", .str "ReplyFanBot")]))).get? (n - 1)
        = some ⟨n, jsMerge fields
        [(slot, .str (formatEmailLogEntry t m tpl st none)),
         ("is_sent", .bool true), ("sent_by", .str "ReplyFanBot")]⟩ := by
      rw [csvGetRowsAux_get?, hget2]
      have : 1 + (n - 1) = n := by omega
      rw [this]
      rfl
    refine ⟨⟨n, (writeRowsHeaders file.headers (csvGetRowsAux 1 (file.records.set (n - 1)
        (jsMerge fields
        [(slot, .str (formatEmailLogEntry t m tpl st none)),
         ("is_sent", .bool true), ("sent_by", .str "ReplyFanBot")])))).map
        (fun h => (h, (rowGet (jsMerge fields
        [(slot, .str (formatEmailLogEntry t m tpl st none)),
         ("is_sent", .bool true), ("sent_by", .str "ReplyFanBot")]) h).getD (.str "")))⟩,
        ?_, ?_, parse_format_none t m tpl st ht hm htpl hst⟩
    · unfold csvGetRow csvGetRows csvWriteRows
      rw [csvGetRowsAux_find? _ 1 n hn]
      simp only [List.get?_eq_getElem?, List.getElem?_map]
      rw [← List.get?_eq_getElem?, hrows2get]
      rfl
    · rw [rowGet_mapkeys]
      rw [if_pos]
      · rw [hmergedGet]
        rfl
      · rw [mem_writeRowsHeaders]
        refine Or.inr ⟨⟨n, jsMerge fields
          [(slot, .str (formatEmailLogEntry t m tpl st none)),
           ("is_sent", .bool true), ("sent_by", .str "ReplyFanBot")]⟩, ?_, ?_⟩
        · exact List.get?_mem hrows2get
        · exact rowGet_some_mem_keys _ _ _ hmergedGet

/-- Witness for C5 on a concrete one-row file and concrete field values. -/
theorem C5_update_roundtrip_witness :
    ∃ file2, csvUpdateRow ⟨["Name", "$EMAIL_1"], [[("Name", CellValue.str "Alex"), ("$EMAIL_1", CellValue.str "")]]⟩ 1
        [("$EMAIL_1", .str (formatEmailLogEntry "2024-01-01T00:00:00.000Z" "msg_001" "email_1" "SENT" none)),
         ("is_sent", .bool true), ("sent_by", .str "ReplyFanBot")] = .ok file2
      ∧ ∃ r, csvGetRow file2 1 = some r
        ∧ rowGet r.fields "$EMAIL_1"
            = some (.str (formatEmailLogEntry "2024-01-01T00:00:00.000Z" "msg_001" "email_1" "SENT" none))
        ∧ parseEmailLogEntry (formatEmailLogEntry "2024-01-01T00:00:00.000Z" "msg_001" "email_1" "SENT" none)
            = some { timestamp := "2024-01-01T00:00:00.000Z", messageId := "msg_001",
                     templateName := "email_1", status := "SENT", subject := none } :=
  C5_update_roundtrip ⟨["Name", "$EMAIL_1"], [[("Name", CellValue.str "Alex"), ("$EMAIL_1", CellValue.str "")]]⟩
    1 "$EMAIL_1" "2024-01-01T00:00:00.000Z" "msg_001" "email_1" "SENT"
    (by decide) (by decide) (by decide) (by decide) (by decide) (by decide)

/-! ## C9: addColumn idempotence -/

theorem csvAddColumn_mem_eq (g : CsvFile) (name : String) (hg : name ∈ g.headers) :
    csvAddColumn g name = g := by
  simp [csvAddColumn, hg]

theorem sheetsAddColumn_mem_eq (g : SheetsState) (name : String) (hg : name ∈ g.headers) :
    sheetsAddColumn g name = g := by
  simp [sheetsAddColumn, hg]

theorem csvAddColumn_headers_notmem (file : CsvFile) (name : String)
    (hnm : name ∉ file.headers) :
    (csvAddColumn file name).headers
      = writeRowsHeaders (file.headers ++ [name])
          ((csvGetRows file).map (fun r =>
            { r with fields := setKey r.fields name (.str "") })) := by
  simp [csvAddColumn, hnm, csvWriteRows]

/-- C9: `addColumn` is idempotent on both backends — a second call with
the same name is a no-op (only a warning is logged), and the resulting
header row holds exactly one column with that name, provided the name was
not already duplicated in the stored header row. -/
theorem C9_addColumn_idempotent :
    (∀ (file : CsvFile) (name : String),
        csvAddColumn (csvAddColumn file name) name = csvAddColumn file name)
    ∧ (∀ (file : CsvFile) (name : String), file.headers.count name ≤ 1 →
        (csvAddColumn file name).headers.count name = 1)
    ∧ (∀ (s : SheetsState) (name : String),
        sheetsAddColumn (sheetsAddColumn s name) name = sheetsAddColumn s name)
    ∧ (∀ (s : SheetsState) (name : String), s.headers.count name ≤ 1 →
        (sheetsAddColumn s name).headers.count name = 1) := by
  have hmemNew : ∀ (file : CsvFile) (name : String), name ∉ file.headers →
      name ∈ (csvAddColumn file name).headers := by
    intro file name hnm
    rw [csvAddColumn_headers_notmem file name hnm, mem_writeRowsHeaders]
    exact Or.inl (by simp)
  refine ⟨?_, ?_, ?_, ?_⟩
  · intro file name
    by_cases hmem : name ∈ file.headers
    · have h1 := csvAddColumn_mem_eq file name hmem
      rw [h1]
      exact h1
    · exact csvAddColumn_mem_eq _ name (hmemNew file name hmem)
  · intro file name hcount
    by_cases hmem : name ∈ file.headers
    · rw [csvAddColumn_mem_eq file name hmem]
      have : 0 < file.headers.count name := List.count_pos_iff_mem.mpr hmem
      omega
    · have hnodup : (csvAddColumn file name).headers.Nodup := by
        rw [csvAddColumn_headers_notmem file name hmem]
        exact nodup_writeRowsHeaders _ _
      exact List.count_eq_one_of_mem hnodup (hmemNew file name hmem)
  · intro s name
    by_cases hmem : name ∈ s.headers
    · have h1 := sheetsAddColumn_mem_eq s name hmem
      rw [h1]
      exact h1
    · refine sheetsAddColumn_mem_eq _ name ?_
      simp [sheetsAddColumn, hmem]
  · intro s name hcount
    by_cases hmem : name ∈ s.headers
    · rw [sheetsAddColumn_mem_eq s name hmem]
      have : 0 < s.headers.count name := List.count_pos_iff_mem.mpr hmem
      omega
    · have hc : s.headers.contains name = false := by
        cases hcb : s.headers.contains name
        · rfl
        · exact absurd ((contains_iff_mem _ _).mp hcb) hmem
      simp only [sheetsAddColumn, hc, Bool.false_eq_true, if_false]
      rw [List.count_append, List.count_eq_zero.mpr hmem]
      simp

/-- Witness for C9 on a concrete one-row file and a concrete sheet state. -/
theorem C9_addColumn_idempotent_witness :
    (csvAddColumn ⟨["Name"], [[("Name", CellValue.str "Alex")]]⟩ "$EMAIL_2").headers.count "$EMAIL_2" = 1
    ∧ (sheetsAddColumn ⟨["Name"], none⟩ "$EMAIL_2").headers.count "$EMAIL_2" = 1 :=
  ⟨C9_addColumn_idempotent.2.1 ⟨["Name"], [[("Name", CellValue.str "Alex")]]⟩ "$EMAIL_2" (by decide),
   C9_addColumn_idempotent.2.2.2 ⟨["Name"], none⟩ "$EMAIL_2" (by decide)⟩

/-! ## C1: row numbering of `getRows` -/

theorem csvGetRowsAux_rowNumbers : ∀ (rs : List RowFields) (k : Nat),
    (csvGetRowsAux k rs).map ContactRow.rowNumber = List.range' k rs.length := by
  intro rs
  induction rs with
  | nil => intro k; rfl
  | cons r rs2 ih =>
    intro k
    simp [csvGetRowsAux, ih, List.range'_succ]

theorem sheetsGetRowsAux_lb (headers : List String) (startRow : Nat) :
    ∀ (rs : List SheetRow) (idx : Nat) (x : ContactRow),
      x ∈ sheetsGetRowsAux headers startRow rs idx → startRow + idx - 1 ≤ x.rowNumber := by
  intro rs
  induction rs with
  | nil => intro idx x hx; simp [sheetsGetRowsAux] at hx
  | cons r rs2 ih =>
    intro idx x hx
    unfold sheetsGetRowsAux at hx
    by_cases hne : sheetRowNonEmpty r = true
    · rw [if_pos hne] at hx
      rw [List.mem_cons] at hx
      cases hx with
      | inl he => rw [he]; rfl
      | inr hm =>
        have := ih (idx + 1) x hm
        omega
    · rw [if_neg hne] at hx
      have := ih (idx + 1) x hx
      omega

theorem sheetsGetRowsAux_chain (headers : List String) (startRow : Nat)
    (hsr : 1 ≤ startRow) :
    ∀ (rs : List SheetRow) (idx : Nat),
      ((sheetsGetRowsAux headers startRow rs idx).map ContactRow.rowNumber).Chain' (· < ·) := by
  intro rs
  induction rs with
  | nil => intro idx; simp [sheetsGetRowsAux]
  | cons r rs2 ih =>
    intro idx
    unfold sheetsGetRowsAux
    by_cases hne : sheetRowNonEmpty r = true
    · rw [if_pos hne]
      rw [List.map_cons, List.chain'_cons']
      refine ⟨?_, ih (idx + 1)⟩
      intro b hb
      have hbmem : b ∈ (sheetsGetRowsAux headers startRow rs2 (idx + 1)).map ContactRow.rowNumber :=
        List.mem_of_mem_head? hb
      rw [List.mem_map] at hbmem
      obtain ⟨x, hx, hxb⟩ := hbmem
      have := sheetsGetRowsAux_lb headers startRow rs2 (idx + 1) x hx
      show (rowToContactRow headers r (startRow + idx)).rowNumber < b
      unfold rowToContactRow
      simp only
      omega
    · rw [if_neg hne]
      exact ih (idx + 1)

theorem sheetsGetRowsAux_all_nonempty (headers : List String) (startRow : Nat)
    (hsr : 1 ≤ startRow) :
    ∀ (rs : List SheetRow), (∀ r ∈ rs, sheetRowNonEmpty r = true) →
      ∀ idx, (sheetsGetRowsAux headers startRow rs idx).map ContactRow.rowNumber
        = List.range' (startRow + idx - 1) rs.length := by
  intro rs
  induction rs with
  | nil => intro _ idx; rfl
  | cons r rs2 ih =>
    intro hall idx
    unfold sheetsGetRowsAux
    rw [if_pos (hall r (by simp))]
    rw [List.map_cons, ih (fun x hx => hall x (by simp [hx])) (idx + 1)]
    show (startRow + idx - 1) :: List.range' (startRow + (idx + 1) - 1) rs2.length
      = List.range' (startRow + idx - 1) (rs2.length + 1)
    rw [List.range'_succ]
    have : startRow + idx - 1 + 1 = startRow + (idx + 1) - 1 := by omega
    rw [this]

/-- C1 counterexample: the two backends do not number rows identically and
the remote backend's identifiers are not gap-free.  On a sheet whose
second data row is blank, `getRows` skips the blank row but numbers the
kept rows by sheet position, returning identifiers `[1, 3]` — not
`1..N = [1, 2]`.  On a CSV whose second record is all-blank, `getRows`
does not skip it and returns identifiers `[1, 2, 3]` — the blank record
is row 2. -/
theorem C1_counterexample :
    ((sheetsGetRows ["Name"] 2 [[some "a"], [some ""], [some "b"]]).map ContactRow.rowNumber
      = [1, 3]
    ∧ ¬ ((sheetsGetRows ["Name"] 2 [[some "a"], [some ""], [some "b"]]).map ContactRow.rowNumber
      = List.range' 1 (sheetsGetRows ["Name"] 2 [[some "a"], [some ""], [some "b"]]).length))
    ∧ ((csvGetRows ⟨["Name", "Niche"],
        [[("Name", .str "a"), ("Niche", .str "x")],
         [("Name", .str ""), ("Niche", .str "")],
         [("Name", .str "b"), ("Niche", .str "y")]]⟩).map ContactRow.rowNumber = [1, 2, 3]
    ∧ (sheetRowNonEmpty [some "", some ""] = false)) := by
  decide

/-- C1 (amended): the flat-file backend assigns identifiers `1..N`
consecutively in storage order to every parsed record, skipping nothing;
the remote backend skips all-blank rows and assigns each kept row the
identifier sheet-row − 1, so its identifiers are strictly increasing but
may have gaps where blank rows were skipped; only when no row of the read
range is blank does the remote backend also yield exactly `1..N`. -/
theorem C1_getRows_amended :
    (∀ file : CsvFile,
        (csvGetRows file).map ContactRow.rowNumber = List.range' 1 file.records.length)
    ∧ (∀ (headers : List String) (rows : List SheetRow),
        (((sheetsGetRows headers 2 rows).map ContactRow.rowNumber).Chain' (· < ·)))
    ∧ (∀ (headers : List String) (rows : List SheetRow),
        (∀ r ∈ rows, sheetRowNonEmpty r = true) →
        (sheetsGetRows headers 2 rows).map ContactRow.rowNumber = List.range' 1 rows.length) := by
  refine ⟨?_, ?_, ?_⟩
  · intro file
    exact csvGetRowsAux_rowNumbers file.records 1
  · intro headers rows
    exact sheetsGetRowsAux_chain headers 2 (by omega) rows 0
  · intro headers rows hall
    exact sheetsGetRowsAux_all_nonempty headers 2 (by omega) rows hall 0

/-- Witness for C1 on a concrete gap-free sheet. -/
theorem C1_getRows_amended_witness :
    (sheetsGetRows ["Name"] 2 [[some "a"], [some "b"]]).map ContactRow.rowNumber
      = List.range' 1 2 :=
  C1_getRows_amended.2.2 ["Name"] [[some "a"], [some "b"]] (by decide)

/-! ## C6 and C10: campaign loop bounds and error handling -/

theorem processRow_shape (enq : Except String Unit) (row : ContactRow) :
    (processRow enq row = .ok (true, [⟨row.rowNumber, row.fields⟩])
      ∧ shouldSkipRow row.fields = false)
    ∨ processRow enq row = .ok (false, []) := by
  unfold processRow processRowBody
  by_cases h : shouldSkipRow row.fields = true
  · right; simp [h]
  · have hf : shouldSkipRow row.fields = false := by simpa using h
    cases enq with
    | ok u => left; exact ⟨by simp [hf], hf⟩
    | error e => right; simp [hf]

theorem processRow_ok (enq : Except String Unit) (row : ContactRow) :
    ∃ pr, processRow enq row = .ok pr := by
  cases processRow_shape enq row with
  | inl h => exact ⟨_, h.1⟩
  | inr h => exact ⟨_, h⟩

theorem processRow_error_enq (e : String) (row : ContactRow) :
    processRow (.error e) row = .ok (false, []) := by
  cases processRow_shape (.error e) row with
  | inl h =>
    exfalso
    have := h.1
    unfold processRow processRowBody at this
    simp [h.2] at this
  | inr h => exact h

theorem runCampaignLoop_invariant (enq : ContactRow → Except String Unit) (maxPerRun : Nat) :
    ∀ (rows : List ContactRow) (stats : CampaignStats) (jobs : List Job),
      (runCampaignLoop enq maxPerRun rows stats jobs).2.length + stats.processedRows
          = jobs.length + (runCampaignLoop enq maxPerRun rows stats jobs).1.processedRows
      ∧ stats.processedRows ≤ (runCampaignLoop enq maxPerRun rows stats jobs).1.processedRows
      ∧ (runCampaignLoop enq maxPerRun rows stats jobs).1.processedRows
          ≤ stats.processedRows + rows.length
      ∧ (stats.processedRows < maxPerRun →
          (runCampaignLoop enq maxPerRun rows stats jobs).1.processedRows ≤ maxPerRun)
      ∧ (runCampaignLoop enq maxPerRun rows stats jobs).1.errors = stats.errors := by
  intro rows
  induction rows with
  | nil =>
    intro stats jobs
    have hnil : runCampaignLoop enq maxPerRun [] stats jobs = (stats, jobs) := rfl
    rw [hnil]
    dsimp only
    exact ⟨by omega, le_refl _, by simp, fun _ => by omega, rfl⟩
  | cons row rest ih =>
    intro stats jobs
    obtain ⟨pr, hpr⟩ := processRow_ok (enq row) row
    have hlen : (pr.1 = true → pr.2.length = 1) ∧ (pr.1 = false → pr.2 = []) := by
      cases processRow_shape (enq row) row with
      | inl h =>
        rw [h.1] at hpr
        injection hpr with hpr
        rw [← hpr]
        exact ⟨fun _ => by simp, by simp⟩
      | inr h =>
        rw [h] at hpr
        injection hpr with hpr
        rw [← hpr]
        exact ⟨by simp, fun _ => by simp⟩
    unfold runCampaignLoop
    rw [hpr]
    obtain ⟨processed, newJobs⟩ := pr
    cases processed with
    | true =>
      have hnj : newJobs.length = 1 := hlen.1 rfl
      dsimp only
      by_cases hstop : maxPerRun ≤ stats.processedRows + 1
      · rw [if_pos hstop]
        dsimp only
        refine ⟨?_, ?_, ?_, ?_, rfl⟩
        · rw [List.length_append]
          omega
        · omega
        · simp only [List.length_cons]
          omega
        · intro _
          omega
      · rw [if_neg hstop]
        have h2 := ih { stats with processedRows := stats.processedRows + 1 } (jobs ++ newJobs)
        dsimp only at h2
        obtain ⟨i1, i2, i3, i4, i5⟩ := h2
        rw [List.length_append, hnj] at i1
        refine ⟨by omega, by omega, ?_, fun _ => i4 (by omega), i5⟩
        simp only [List.length_cons]
        omega
    | false =>
      have hnj : newJobs = [] := hlen.2 rfl
      subst hnj
      dsimp only
      by_cases hstop : maxPerRun ≤ stats.processedRows
      · rw [if_pos hstop]
        dsimp only
        refine ⟨?_, le_refl _, ?_, ?_, rfl⟩
        · rw [List.length_append]
          simp
        · simp only [List.length_cons]
          omega
        · intro _
          omega
      · rw [if_neg hstop]
        have h2 := ih { stats with skippedRows := stats.skippedRows + 1 } (jobs ++ [])
        dsimp only at h2
        rw [List.append_nil] at h2
        obtain ⟨i1, i2, i3, i4, i5⟩ := h2
        rw [List.append_nil]
        refine ⟨by omega, by omega, ?_, fun _ => i4 (by omega), i5⟩
        simp only [List.length_cons]
        omega

theorem runCampaignLoop_allfail (e : String) (maxPerRun : Nat) :
    ∀ (rows : List ContactRow) (stats : CampaignStats) (jobs : List Job),
      stats.processedRows < maxPerRun →
      runCampaignLoop (fun _ => .error e) maxPerRun rows stats jobs
        = ({ stats with skippedRows := stats.skippedRows + rows.length }, jobs) := by
  intro rows
  induction rows with
  | nil =>
    intro stats jobs _
    show (stats, jobs) = _
    simp
  | cons row rest ih =>
    intro stats jobs hlt
    unfold runCampaignLoop
    rw [processRow_error_enq e row]
    dsimp only
    rw [if_neg (Nat.not_le.mpr hlt), List.append_nil]
    rw [ih { stats with skippedRows := stats.skippedRows + 1 } jobs hlt]
    dsimp only
    have : stats.skippedRows + 1 + rest.length = stats.skippedRows + (rest.length + 1) := by omega
    rw [this]
    rfl

theorem runCampaignLoop_jobs_sub (enq : ContactRow → Except String Unit) (maxPerRun : Nat) :
    ∀ (rows : List ContactRow) (stats : CampaignStats) (jobs : List Job),
      ∀ j ∈ (runCampaignLoop enq maxPerRun rows stats jobs).2,
        j ∈ jobs ∨ ∃ r ∈ rows, shouldSkipRow r.fields = false ∧ j = ⟨r.rowNumber, r.fields⟩ := by
  intro rows
  induction rows with
  | nil =>
    intro stats jobs j hj
    exact Or.inl hj
  | cons row rest ih =>
    intro stats jobs j hj
    unfold runCampaignLoop at hj
    cases processRow_shape (enq row) row with
    | inl h =>
      rw [h.1] at hj
      dsimp only at hj
      by_cases hstop : maxPerRun ≤ stats.processedRows + 1
      · rw [if_pos hstop] at hj
        rw [List.mem_append] at hj
        cases hj with
        | inl hm => exact Or.inl hm
        | inr hm =>
          rw [List.mem_singleton] at hm
          exact Or.inr ⟨row, by simp, h.2, hm⟩
      · rw [if_neg hstop] at hj
        have := ih _ _ j hj
        cases this with
        | inl hm =>
          rw [List.mem_append] at hm
          cases hm with
          | inl hmm => exact Or.inl hmm
          | inr hmm =>
            rw [List.mem_singleton] at hmm
            exact Or.inr ⟨row, by simp, h.2, hmm⟩
        | inr hmm =>
          obtain ⟨r, hr, hsk, hje⟩ := hmm
          exact Or.inr ⟨r, by simp [hr], hsk, hje⟩
    | inr h =>
      rw [h] at hj
      dsimp only at hj
      rw [List.append_nil] at hj
      by_cases hstop : maxPerRun ≤ stats.processedRows
      · rw [if_pos hstop] at hj
        exact Or.inl hj
      · rw [if_neg hstop] at hj
        have := ih _ _ j hj
        cases this with
        | inl hm => exact Or.inl hm
        | inr hmm =>
          obtain ⟨r, hr, hsk, hje⟩ := hmm
          exact Or.inr ⟨r, by simp [hr], hsk, hje⟩

/-- C6 (amended): `runCampaign` loads the row set once, iterates in
storage order, enqueues at most one job per eligible row and no job for an
ineligible row, and stops once the enqueued count reaches the
"max emails per run" ceiling; for every positive caller limit the number
of enqueued jobs never exceeds the smaller of the limit and the (positive)
ceiling, and with no caller limit it never exceeds the ceiling.  A caller
limit of `0` is falsy in JavaScript and therefore means "no limit", which
is what the counterexample exhibits. -/
theorem C6_runCampaign_amended :
    (∀ (enq : ContactRow → Except String Unit) (rows : List ContactRow) (maxPerRun n : Nat),
        0 < n → 0 < maxPerRun →
        ((runCampaign enq maxPerRun (some n) rows).2).length ≤ min n maxPerRun)
    ∧ (∀ (enq : ContactRow → Except String Unit) (rows : List ContactRow) (maxPerRun : Nat),
        0 < maxPerRun →
        ((runCampaign enq maxPerRun none rows).2).length ≤ maxPerRun)
    ∧ (∀ (enq : ContactRow → Except String Unit) (rows : List ContactRow)
        (maxPerRun : Nat) (maxRows : Option Nat),
        ∀ j ∈ (runCampaign enq maxPerRun maxRows rows).2,
          ∃ r ∈ rows, shouldSkipRow r.fields = false ∧ j = ⟨r.rowNumber, r.fields⟩) := by
  have hlenbound : ∀ (enq : ContactRow → Except String Unit) (maxPerRun : Nat)
      (rowsToGo : List ContactRow) (stats0 : CampaignStats),
      stats0.processedRows = 0 → 0 < maxPerRun →
      ((runCampaignLoop enq maxPerRun rowsToGo stats0 []).2).length
        ≤ min rowsToGo.length maxPerRun := by
    intro enq maxPerRun rowsToGo stats0 hp hm
    obtain ⟨i1, i2, i3, i4, i5⟩ := runCampaignLoop_invariant enq maxPerRun rowsToGo stats0 []
    rw [hp] at i1 i3 i4
    simp only [List.length_nil] at i1
    exact le_min (by omega) (by have := i4 hm; omega)
  refine ⟨?_, ?_, ?_⟩
  · intro enq rows maxPerRun n hn hm
    unfold runCampaign
    have hslice : jsSliceLimit (some n) rows = rows.take n := by
      simp only [jsSliceLimit]
      rw [if_neg (by simp; omega)]
    rw [hslice]
    have := hlenbound enq maxPerRun (rows.take n)
      { totalRows := rows.length, processedRows := 0, skippedRows := 0,
        sentEmails := 0, failedEmails := 0, errors := [] } rfl hm
    have htake : (rows.take n).length ≤ n := by
      rw [List.length_take]
      omega
    have := le_min (le_trans (le_trans this (min_le_left _ _)) htake)
      (le_trans this (min_le_right _ _))
    exact this
  · intro enq rows maxPerRun hm
    unfold runCampaign
    have hslice : jsSliceLimit none rows = rows := rfl
    rw [hslice]
    exact le_trans (hlenbound enq maxPerRun rows
      { totalRows := rows.length, processedRows := 0, skippedRows := 0,
        sentEmails := 0, failedEmails := 0, errors := [] } rfl hm) (min_le_right _ _)
  · intro enq rows maxPerRun maxRows j hj
    unfold runCampaign at hj
    have := runCampaignLoop_jobs_sub enq maxPerRun (jsSliceLimit maxRows rows) _ [] j hj
    cases this with
    | inl hm => simp at hm
    | inr hm =>
      obtain ⟨r, hr, hsk, hje⟩ := hm
      refine ⟨r, ?_, hsk, hje⟩
      cases maxRows with
      | none => exact hr
      | some n =>
        simp only [jsSliceLimit] at hr
        by_cases hn0 : (n == 0) = true
        · rw [if_pos hn0] at hr
          exact hr
        · rw [if_neg hn0] at hr
          exact List.mem_of_mem_take hr

/-- C10: `processRow` catches every exception raised during enqueue and
returns `false`, the same value as for an ineligible row; consequently
`runCampaign.stats.errors` is always empty — the per-row catch branch is
unreachable — and a run in which every enqueue fails counts every row in
`skippedRows` with `processedRows = 0`. -/
theorem C10_processRow_swallows_enqueue_errors :
    (∀ (enq : Except String Unit) (row : ContactRow), ∃ pr, processRow enq row = .ok pr)
    ∧ (∀ (e : String) (row : ContactRow), processRow (.error e) row = .ok (false, []))
    ∧ (∀ (enq : ContactRow → Except String Unit) (maxPerRun : Nat) (maxRows : Option Nat)
        (rows : List ContactRow),
        (runCampaign enq maxPerRun maxRows rows).1.errors = [])
    ∧ (∀ (e : String) (maxPerRun : Nat) (rows : List ContactRow), 0 < maxPerRun →
        (runCampaign (fun _ => .error e) maxPerRun none rows).1.skippedRows = rows.length
        ∧ (runCampaign (fun _ => .error e) maxPerRun none rows).1.processedRows = 0) := by
  refine ⟨processRow_ok, processRow_error_enq, ?_, ?_⟩
  · intro enq maxPerRun maxRows rows
    unfold runCampaign
    exact (runCampaignLoop_invariant enq maxPerRun (jsSliceLimit maxRows rows) _ []).2.2.2.2
  · intro e maxPerRun rows hm
    unfold runCampaign
    rw [runCampaignLoop_allfail e maxPerRun (jsSliceLimit none rows) _ [] (by exact hm)]
    exact ⟨by simp [jsSliceLimit], rfl⟩

/-- Witness for C6 at a concrete row list, limit and ceiling. -/
theorem C6_runCampaign_amended_witness :
    ((runCampaign (fun _ => .ok ()) 50 (some 1)
      [⟨1, [("Name", CellValue.str "a")]⟩, ⟨2, [("Name", CellValue.str "b")]⟩]).2).length
      ≤ min 1 50 :=
  C6_runCampaign_amended.1 (fun _ => .ok ())
    [⟨1, [("Name", CellValue.str "a")]⟩, ⟨2, [("Name", CellValue.str "b")]⟩]
    50 1 (by decide) (by decide)

/-- C6 counterexample: with one eligible row and a caller-supplied limit
of `0`, the code enqueues one job — `maxRows ? rows.slice(0, maxRows) :
rows` treats the falsy limit `0` as absent — although the stricter of
limit and ceiling is `min 0 50 = 0`. -/
theorem C6_counterexample :
    ((runCampaign (fun _ => .ok ()) 50 (some 0)
      [⟨1, [("Name", CellValue.str "Alex")]⟩]).2).length = 1
    ∧ ¬ (1 ≤ min 0 50) := by
  decide

/-- Witness for C10: a concrete run in which the only enqueue fails ends
with the row skipped and no error recorded. -/
theorem C10_processRow_swallows_enqueue_errors_witness :
    (runCampaign (fun _ => .error "queue down") 50 none
      [⟨1, [("Name", CellValue.str "Alex")]⟩]).1.skippedRows = 1
    ∧ (runCampaign (fun _ => .error "queue down") 50 none
      [⟨1, [("Name", CellValue.str "Alex")]⟩]).1.processedRows = 0 :=
  C10_processRow_swallows_enqueue_errors.2.2.2 "queue down" 50
    [⟨1, [("Name", CellValue.str "Alex")]⟩] (by decide)

/-! ## C4: the worker's log-entry construction drops the html argument -/

/-- C4 (code bug): `processRowJob` passes the rendered html as a sixth
argument, but `formatEmailLogEntry` has only five parameters, so the
persisted entry never contains an `HTML: <text>` segment — here shown at a
concrete input: the entry equals the four mandatory fields plus the
subject segment, no part of the split begins with `HTML:`, and (the part
of the claim the code does satisfy) a four-field entry parses to the four
mandatory fields with the optional subject absent. -/
theorem C4_html_segment_dropped :
    processRowJobLogEntry "2024-01-01T00:00:00.000Z" "msg_001" "email_1" "SENT" "Hello" "<p>Hi</p>"
      = "2024-01-01T00:00:00.000Z | msg_001 | email_1 | SENT | Subject: Hello"
    ∧ ((splitSep (processRowJobLogEntry "2024-01-01T00:00:00.000Z" "msg_001" "email_1" "SENT"
          "Hello" "<p>Hi</p>")).map (fun p => p.data.take 5 == "HTML:".data)
      = [false, false, false, false, false])
    ∧ parseEmailLogEntry "2024-01-01T00:00:00.000Z | msg_001 | email_1 | SENT"
        = some { timestamp := "2024-01-01T00:00:00.000Z", messageId := "msg_001",
                 templateName := "email_1", status := "SENT", subject := none } := by
  decide

/-! ## C7: the CSV rewrite is not an atomic replace -/

/-- The cell text serialised for one value. -/
def cellText : CellValue → String
  | .str s => s
  | .bool b => if b then "true" else "false"
  | .num n => toString n

/-- One serialised CSV line (quoting elided — only line counts matter
below). -/
def csvLine (cells : List String) : String := String.intercalate "," cells

/-- The serialised lines of a CSV file: the header line followed by one
line per record. -/
def csvFileLines (file : CsvFile) : List String :=
  csvLine file.headers :: file.records.map (fun r => csvLine (r.map (fun p => cellText p.2)))

/-- The observable on-disk states of the rewrite performed by `writeRows`:
`createObjectCsvWriter` is handed `this.filePath` itself and writes there
directly — a truncating write for the header followed by appends for the
records.  There is no temporary file and no rename anywhere in the
provider, so a crash (or a concurrent reader) can observe any prefix of
the new content in place of the old file. -/
def inPlaceWriteStates (newLines : List String) : List (List String) :=
  (List.range (newLines.length + 1)).map (fun k => newLines.take k)

/-- The discipline the spec requires (write-to-temp-then-rename): the only
observable states of the destination path are the complete old content and
the complete new content. -/
def atomicReplaceStates (oldLines newLines : List String) : List (List String) :=
  [oldLines, newLines]

/-- C7 (code bug): on a two-row file, `updateRow` succeeds, but the
in-place rewrite it delegates to csv-writer has an observable intermediate
state with fewer lines than the three lines the file held before the call
— an interrupt mid-write loses rows — whereas under the atomic replace the
spec requires, no observable state of this update has fewer than three
lines. -/
theorem C7_inplace_write_truncation :
    csvUpdateRow ⟨["Name"], [[("Name", CellValue.str "Alex")], [("Name", CellValue.str "Sam")]]⟩ 1
        [("Name", CellValue.str "Alexa")]
      = .ok ⟨["Name"], [[("Name", CellValue.str "Alexa")], [("Name", CellValue.str "Sam")]]⟩
    ∧ (csvFileLines ⟨["Name"], [[("Name", CellValue.str "Alex")], [("Name", CellValue.str "Sam")]]⟩).length = 3
    ∧ (∃ s ∈ inPlaceWriteStates (csvFileLines ⟨["Name"],
        [[("Name", CellValue.str "Alexa")], [("Name", CellValue.str "Sam")]]⟩), s.length < 3)
    ∧ (∀ s ∈ atomicReplaceStates
        (csvFileLines ⟨["Name"], [[("Name", CellValue.str "Alex")], [("Name", CellValue.str "Sam")]]⟩)
        (csvFileLines ⟨["Name"], [[("Name", CellValue.str "Alexa")], [("Name", CellValue.str "Sam")]]⟩),
        ¬ s.length < 3) := by
  refine ⟨by rfl, by decide, by decide, by decide⟩

/-! ## C8: the research agent degrades instead of raising -/

/-- Channel metadata assembled by `fetchYouTubeData`. -/
structure YouTubeChannelInfo where
  channelId : String
  channelName : String
deriving DecidableEq, Repr

/-- `ResearchData` from `types/index.ts`. -/
structure ResearchData where
  summary : String
  recentVideos : List String
  channelName : String
  channelId : Option String := none
deriving DecidableEq, Repr

/-- The effect outcomes `getResearch` can encounter: the cache lookup, the
URL parse (`extractChannelId`, which returns `null` on an invalid URL),
the YouTube API calls inside `fetchYouTubeData`'s `try` (an `error` models
a thrown failure such as quota exhaustion), and the GPT call inside
`generateChannelSummary`'s `try`. -/
structure ChannelResearchEffects where
  cached : Option ResearchData
  channelIdentifier : Option String
  apiKeyPresent : Bool
  youtubeApi : Except String (YouTubeChannelInfo × List String)
  gptSummary : Except String String

/-- `fetchYouTubeData`: throws before its `try` when the API key is
missing; any failure inside the `try` is caught and replaced by the
fallback channel info (`'YouTube Channel'`, no videos). -/
def fetchYouTubeData (o : ChannelResearchEffects) (channelIdentifier : String) :
    Except String (YouTubeChannelInfo × List String) :=
  if !o.apiKeyPresent then .error "YouTube API key not configured"
  else
    match o.youtubeApi with
    | .ok r => .ok r
    | .error _ => .ok (⟨channelIdentifier, "YouTube Channel"⟩, [])

/-- `generateChannelSummary`: a GPT failure is caught and replaced by a
generic sentence built from the channel name and the niche. -/
def generateChannelSummary (gpt : Except String String) (channelName niche : String) : String :=
  match gpt with
  | .ok summary => summary
  | .error _ =>
    channelName ++ " is a " ++ niche ++ " YouTube channel creating engaging content for their audience."

/-- `getResearch`: cache hit short-circuits; otherwise the whole body is a
`try` whose `catch` returns the minimal fallback research data. -/
def getResearch (o : ChannelResearchEffects) (youtubeUrl niche : String) :
    Except String ResearchData :=
  match o.cached with
  | some d => .ok d
  | none =>
    let body : Except String ResearchData :=
      match o.channelIdentifier with
      | none => .error "Invalid YouTube URL"
      | some channelIdentifier =>
        match fetchYouTubeData o channelIdentifier with
        | .error e => .error e
        | .ok (channelInfo, videoTitles) =>
          .ok { summary := generateChannelSummary o.gptSummary channelInfo.channelName niche,
                recentVideos := videoTitles.filter (fun t => t.length > 0),
                channelName := channelInfo.channelName,
                channelId := some channelInfo.channelId }
    match body with
    | .ok d => .ok d
    | .error _ =>
      .ok { summary := "A " ++ niche ++ " YouTube channel creating content for their audience.",
            recentVideos := [], channelName := "YouTube Creator", channelId := none }

/-- The effect outcomes `getWebsiteResearch` can encounter: the cache
lookup, `fetchWebsiteContent` (an `error` models a thrown failure — HTTP
error or the 10-second timeout), the GPT call, and the hostname extracted
by the `URL` constructor (`none` models its throwing). -/
structure WebsiteResearchEffects where
  cached : Option ResearchData
  fetchContent : Except String String
  gptSummary : Except String String
  hostname : Option String

/-- `generateWebsiteSummary`: a GPT failure is caught and replaced by a
generic sentence built from the niche. -/
def generateWebsiteSummary (gpt : Except String String) (niche : String) : String :=
  match gpt with
  | .ok summary => summary
  | .error _ => "A " ++ niche ++ " website creating content for their audience."

/-- `getWebsiteResearch`: cache hit short-circuits; otherwise the whole
body is a `try` whose `catch` returns the minimal fallback research
data. -/
def getWebsiteResearch (o : WebsiteResearchEffects) (websiteUrl niche : String) :
    Except String ResearchData :=
  match o.cached with
  | some d => .ok d
  | none =>
    let body : Except String ResearchData :=
      match o.fetchContent with
      | .error e => .error e
      | .ok _websiteContent =>
        .ok { summary := generateWebsiteSummary o.gptSummary niche,
              recentVideos := [],
              channelName := match o.hostname with
                | some h => h
                | none => websiteUrl,
              channelId := none }
    match body with
    | .ok d => .ok d
    | .error _ =>
      .ok { summary := "A " ++ niche ++ " website creating content for their audience.",
            recentVideos := [], channelName := "Website Creator", channelId := none }

/-- C8: for every combination of effect outcomes, `getResearch` and
`getWebsiteResearch` return a research object and never raise — quota
exhaustion, fetch timeout, parse failure and even the missing-API-key
programmer error all end in a degraded-but-valid result.  On the
total-failure paths the result is the generic fallback built from the
niche with an empty titles list: an invalid URL yields the minimal
channel fallback; quota exhaustion plus a GPT failure yields the generic
sentence for the fallback channel name with no titles; a website fetch
failure yields the minimal website fallback. -/
theorem C8_research_never_raises :
    (∀ (o : ChannelResearchEffects) (url niche : String),
        ∃ d, getResearch o url niche = .ok d)
    ∧ (∀ (o : WebsiteResearchEffects) (url niche : String),
        ∃ d, getWebsiteResearch o url niche = .ok d)
    ∧ (∀ (o : ChannelResearchEffects) (url niche : String),
        o.cached = none → o.channelIdentifier = none →
        getResearch o url niche
          = .ok ⟨"A " ++ niche ++ " YouTube channel creating content for their audience.",
                 [], "YouTube Creator", none⟩)
    ∧ (∀ (o : ChannelResearchEffects) (url niche cid e1 e2 : String),
        o.cached = none → o.channelIdentifier = some cid → o.apiKeyPresent = true →
        o.youtubeApi = .error e1 → o.gptSummary = .error e2 →
        getResearch o url niche
          = .ok ⟨"YouTube Channel" ++ " is a " ++ niche
                   ++ " YouTube channel creating engaging content for their audience.",
                 [], "YouTube Channel", some cid⟩)
    ∧ (∀ (o : WebsiteResearchEffects) (url niche e : String),
        o.cached = none → o.fetchContent = .error e →
        getWebsiteResearch o url niche
          = .ok ⟨"A " ++ niche ++ " website creating content for their audience.",
                 [], "Website Creator", none⟩) := by
  refine ⟨?_, ?_, ?_, ?_, ?_⟩
  · intro o url niche
    unfold getResearch fetchYouTubeData
    cases o.cached <;> cases o.channelIdentifier <;> cases o.apiKeyPresent
      <;> cases o.youtubeApi <;> cases o.gptSummary <;> simp [generateChannelSummary]
  · intro o url niche
    unfold getWebsiteResearch
    cases o.cached <;> cases o.fetchContent <;> simp [generateWebsiteSummary]
  · intro o url niche hc hid
    unfold getResearch
    rw [hc, hid]
  · intro o url niche cid e1 e2 hc hid hkey hapi hgpt
    unfold getResearch fetchYouTubeData
    rw [hc, hid, hkey, hapi, hgpt]
    simp [generateChannelSummary]
  · intro o url niche e hc hf
    unfold getWebsiteResearch
    rw [hc, hf]

/-- Witness for C8: concrete total-failure runs of both variants produce
the generic fallbacks. -/
theorem C8_research_never_raises_witness :
    getResearch ⟨none, none, true, .error "quota", .error "gpt down"⟩ "not-a-url" "Fitness"
      = .ok ⟨"A " ++ "Fitness" ++ " YouTube channel creating content for their audience.",
             [], "YouTube Creator", none⟩
    ∧ getWebsiteResearch ⟨none, .error "timeout", .error "gpt down", some "alexfit.com"⟩
        "alexfit.com" "Fitness"
      = .ok ⟨"A " ++ "Fitness" ++ " website creating content for their audience.",
             [], "Website Creator", none⟩ :=
  ⟨C8_research_never_raises.2.2.1 ⟨none, none, true, .error "quota", .error "gpt down"⟩
      "not-a-url" "Fitness" rfl rfl,
   C8_research_never_raises.2.2.2.2 ⟨none, .error "timeout", .error "gpt down", some "alexfit.com"⟩
      "alexfit.com" "Fitness" "timeout" rfl rfl⟩
